import Mathlib

/-!
Shallow embedding of `docs/conf.py`, the Sphinx build configuration of the
solang repository, together with proofs of the spec's claims about it.

The file's only behaviors are:
* an import of `pygments_lexer_solidity` (line 20 of the source);
* a `setup(sphinx)` hook registering two lexers (lines 22-24);
* two version strings computed by
  `os.popen('git describe ...').readline().strip()` (lines 33-34);
* static module-level configuration values (lines 28-70).

Python semantics embedded here, faithful to the source:
* `file.readline()` on captured stdout returns the first line of the
  output *including* its trailing newline (or the whole output when it
  holds no newline, or the empty string on empty output);
* `str.strip()` with no argument removes whitespace characters from both
  the left and the right end of the string.
-/

namespace SolangDocsConf

/-- The ASCII whitespace characters removed by Python's `str.strip()`. -/
def isPyWhitespace (c : Char) : Bool :=
  c = ' ' || c = '\t' || c = '\n' || c = '\r' || c = '\x0b' || c = '\x0c'

/-- `file.readline()` on a captured output, at the level of character
lists: the first line, including its trailing newline when present. -/
def readlineList : List Char → List Char
  | [] => []
  | c :: cs => if c = '\n' then [c] else c :: readlineList cs

/-- `file.readline()` on a captured output string. -/
def readline (s : String) : String := String.mk (readlineList s.data)

/-- Drop the longest suffix whose characters all satisfy `p`. -/
def dropTrailingWhile (p : Char → Bool) (l : List Char) : List Char :=
  (l.reverse.dropWhile p).reverse

/-- Python `str.strip()` at the level of character lists: remove leading
and trailing whitespace. -/
def pyStripList (l : List Char) : List Char :=
  dropTrailingWhile isPyWhitespace (l.dropWhile isPyWhitespace)

/-- Python `str.strip()`. -/
def pyStrip (s : String) : String := String.mk (pyStripList s.data)

/-- The first shell command of `conf.py` line 33. -/
def describeNearestCmd : String := "git describe --tags --abbrev=0"

/-- The second shell command of `conf.py` line 34. -/
def describeCmd : String := "git describe --tags"

/-- The state of the world outside `conf.py`: what standard output each
shell command run through `os.popen` produces.  `git` is an external
tool, not code of this repository, so it is kept abstract. -/
structure GitWorld where
  popen : String → String

/-- The module-level configuration values assigned by `conf.py`. -/
structure SphinxConfig where
  project : String
  copyright : String
  author : String
  version : String
  release : String
  extensions : List String
  sphinx_tabs_disable_tab_closing : Bool
  templates_path : List String
  exclude_patterns : List String
  html_theme : String
  master_doc : String
  deriving DecidableEq, Repr

/-- Evaluating the module-level assignments of `conf.py` (lines 28-70)
against a given world: every value is the literal from the source, and
`version` / `release` are
`os.popen(cmd).readline().strip()` for the two `git describe` commands. -/
def loadConfig (w : GitWorld) : SphinxConfig :=
  { project := "Solang Solidity Compiler"
  , copyright := "2019 - 2023 Solang Maintainers"
  , author := "Sean Young <sean@mess.org>, Cyrill Leutwiler <bigcyrill@hotmail.com>, Lucas Steuernagel <lucas.tnagel@gmail.com>"
  , version := pyStrip (readline (w.popen describeNearestCmd))
  , release := pyStrip (readline (w.popen describeCmd))
  , extensions := ["sphinx_tabs.tabs"]
  , sphinx_tabs_disable_tab_closing := true
  , templates_path := ["_templates"]
  , exclude_patterns := []
  , html_theme := "sphinx_rtd_theme"
  , master_doc := "index" }

/-- The two lexer classes imported from `pygments_lexer_solidity` on
line 20.  Their internals are external to this repository; only their
identity matters to `conf.py`. -/
inductive Lexer where
  | SolidityLexer
  | YulLexer
  deriving DecidableEq, Repr

/-- The documentation generator's state, reduced to the part `conf.py`
touches: its lexer table, a mapping from language name to lexer.  The
table is modelled as an association list where later registrations are
consulted first, matching dictionary-update semantics. -/
structure Sphinx where
  lexers : List (String × Lexer)

/-- `sphinx.add_lexer(name, lexer)`: register `lexer` under `name`. -/
def addLexer (sph : Sphinx) (name : String) (lx : Lexer) : Sphinx :=
  { sph with lexers := (name, lx) :: sph.lexers }

/-- Look a language name up in the generator's lexer table. -/
def Sphinx.getLexer (sph : Sphinx) (name : String) : Option Lexer :=
  (sph.lexers.find? (fun e => e.1 = name)).map (·.2)

/-- The `setup(sphinx)` hook of `conf.py` lines 22-24: register
`SolidityLexer` under `'Solidity'` and `YulLexer` under `'Yul'`. -/
def setup (sph : Sphinx) : Sphinx :=
  addLexer (addLexer sph "Solidity" Lexer.SolidityLexer) "Yul" Lexer.YulLexer

/-- Observable side effects of executing `conf.py` and the generator's
extension-loading phase. -/
inductive Effect where
  | importAttempt
  | popen (cmd : String)
  | registerLexer (name : String)
  deriving DecidableEq, Repr

/-- The environment `conf.py` executes in: whether the external
`pygments_lexer_solidity` library is importable, and the world the shell
commands run against. -/
structure ModuleEnv where
  lexerLibAvailable : Bool
  git : GitWorld

/-- The Python error message raised when line 20's import fails. -/
def importErrorMsg : String :=
  "ModuleNotFoundError: No module named pygments_lexer_solidity"

/-- Executing the statements of `conf.py` top to bottom, recording side
effects in order.  The `from pygments_lexer_solidity import ...` on
line 20 runs first; if it fails, the module raises and none of the later
statements (in particular the two `os.popen` calls of lines 33-34) run.
Otherwise the module-level assignments execute, invoking `os.popen` once
per `git describe` command, and loading yields the configuration. -/
def loadModuleTrace (env : ModuleEnv) : List Effect × Except String SphinxConfig :=
  if env.lexerLibAvailable then
    ([Effect.importAttempt,
      Effect.popen describeNearestCmd,
      Effect.popen describeCmd],
     Except.ok (loadConfig env.git))
  else
    ([Effect.importAttempt], Except.error importErrorMsg)

/-- The `setup` hook with its side effects recorded: one registration
per `add_lexer` call, in source order. -/
def setupTrace (sph : Sphinx) : List Effect × Sphinx :=
  ([Effect.registerLexer "Solidity", Effect.registerLexer "Yul"], setup sph)

/-- A documentation build as the generator drives it: import the
configuration module, and only when that succeeds call its `setup` hook
during extension loading. -/
def sphinxBuild (env : ModuleEnv) (sph : Sphinx) :
    List Effect × Except String (SphinxConfig × Sphinx) :=
  match loadModuleTrace env with
  | (tr, Except.ok cfg) =>
      (tr ++ (setupTrace sph).1, Except.ok (cfg, (setupTrace sph).2))
  | (tr, Except.error e) => (tr, Except.error e)

/-- Whether an effect is an `os.popen` invocation. -/
def Effect.isPopen : Effect → Bool
  | Effect.popen _ => true
  | _ => false

/-- Spec-side definition, following the spec's words for claim C5: the
first line of the captured output (without its newline). -/
def specFirstLine (s : String) : String :=
  String.mk (s.data.takeWhile (fun c => c != '\n'))

/-- Spec-side definition, following the spec's words for claim C5: "the
entire captured standard output" with "trailing whitespace" stripped —
no leading strip and no restriction to the first line. -/
def specEntireOutputRStrip (s : String) : String :=
  String.mk (dropTrailingWhile isPyWhitespace s.data)

/-! ### Helper lemmas about the embedded string primitives -/

theorem dropWhile_eq_self_of_all {p : Char → Bool} {l : List Char}
    (h : ∀ c ∈ l, p c = false) : l.dropWhile p = l := by
  cases l with
  | nil => rfl
  | cons a t => simp [List.dropWhile, h a (List.mem_cons_self a t)]

theorem takeWhile_eq_self_of_all {p : Char → Bool} {l : List Char}
    (h : ∀ c ∈ l, p c = true) : l.takeWhile p = l := by
  induction l with
  | nil => rfl
  | cons a t ih =>
    simp only [List.takeWhile, h a (List.mem_cons_self a t), List.cons.injEq, true_and]
    exact ih (fun c hc => h c (List.mem_cons_of_mem a hc))

theorem mem_of_mem_dropWhile {p : Char → Bool} {l : List Char} {c : Char}
    (h : c ∈ l.dropWhile p) : c ∈ l := by
  induction l with
  | nil => simp [List.dropWhile] at h
  | cons a t ih =>
    by_cases hp : p a
    · simp only [List.dropWhile, hp] at h
      exact List.mem_cons_of_mem a (ih h)
    · simpa [List.dropWhile, hp] using h

theorem head?_dropWhile_false {p : Char → Bool} {l : List Char} {c : Char}
    (h : (l.dropWhile p).head? = some c) : p c = false := by
  induction l with
  | nil => simp [List.dropWhile] at h
  | cons a t ih =>
    by_cases hp : p a
    · simp only [List.dropWhile, hp] at h
      exact ih h
    · simp only [List.dropWhile, hp, Bool.false_eq_true, if_false, List.head?_cons,
        Option.some.injEq] at h
      rw [← h]
      exact Bool.not_eq_true _ ▸ (by simpa using hp)

theorem readlineList_of_not_mem {l : List Char} (h : '\n' ∉ l) :
    readlineList l = l := by
  induction l with
  | nil => rfl
  | cons a t ih =>
    have ha : ¬(a = '\n') := fun e => h (e ▸ List.mem_cons_self a t)
    simp only [readlineList, ha, if_false, List.cons.injEq, true_and]
    exact ih (fun m => h (List.mem_cons_of_mem a m))

theorem readlineList_of_mem {l : List Char} (h : '\n' ∈ l) :
    readlineList l = l.takeWhile (fun c => c != '\n') ++ ['\n'] := by
  induction l with
  | nil => cases h
  | cons a t ih =>
    by_cases ha : a = '\n'
    · subst ha
      simp [readlineList, List.takeWhile]
    · have ht : '\n' ∈ t := by
        rcases List.mem_cons.mp h with h1 | h1
        · exact absurd h1.symm ha
        · exact h1
      have hbne : (a != '\n') = true := bne_iff_ne.mpr ha
      simp only [readlineList, ha, if_false, List.takeWhile, hbne, List.cons_append,
        List.cons.injEq, true_and]
      exact ih ht

theorem readlineList_append_newline {l : List Char} (h : '\n' ∉ l) :
    readlineList (l ++ ['\n']) = l ++ ['\n'] := by
  induction l with
  | nil => rfl
  | cons a t ih =>
    have ha : ¬(a = '\n') := fun e => h (e ▸ List.mem_cons_self a t)
    simp only [List.cons_append, readlineList, ha, if_false, List.cons.injEq, true_and]
    exact ih (fun m => h (List.mem_cons_of_mem a m))

theorem dropTrailingWhile_append_singleton {p : Char → Bool} {l : List Char} {c : Char}
    (h : p c = true) : dropTrailingWhile p (l ++ [c]) = dropTrailingWhile p l := by
  simp [dropTrailingWhile, List.reverse_append, List.dropWhile, h]

theorem pyStripList_append_newline {l : List Char} {c : Char}
    (h : isPyWhitespace c = true) :
    pyStripList (l ++ [c]) = pyStripList l := by
  rw [pyStripList, pyStripList, List.dropWhile_append]
  by_cases he : (l.dropWhile isPyWhitespace).isEmpty
  · rw [if_pos he, List.isEmpty_iff.mp he]
    simp [List.dropWhile, h, dropTrailingWhile]
  · rw [if_neg he]
    exact dropTrailingWhile_append_singleton h

theorem pyStripList_eq_self_of_all {l : List Char}
    (h : ∀ c ∈ l, isPyWhitespace c = false) :
    pyStripList l = l := by
  rw [pyStripList, dropWhile_eq_self_of_all h, dropTrailingWhile,
    dropWhile_eq_self_of_all (fun c hc => h c (List.mem_reverse.mp hc)),
    List.reverse_reverse]

theorem head?_pyStripList_not_ws {l : List Char} {c : Char}
    (h : (pyStripList l).head? = some c) : isPyWhitespace c = false := by
  rw [pyStripList, dropTrailingWhile, List.head?_reverse] at h
  have hne : (l.dropWhile isPyWhitespace).reverse.dropWhile isPyWhitespace ≠ [] := by
    intro e
    rw [e] at h
    exact Option.noConfusion h
  have h2 : ((l.dropWhile isPyWhitespace).reverse).getLast? = some c := by
    conv_lhs =>
      rw [← List.takeWhile_append_dropWhile (p := isPyWhitespace)
        (l := (l.dropWhile isPyWhitespace).reverse)]
    rw [List.getLast?_append_of_ne_nil _ hne]
    exact h
  rw [List.getLast?_reverse] at h2
  exact head?_dropWhile_false h2

theorem getLast?_pyStripList_not_ws {l : List Char} {c : Char}
    (h : (pyStripList l).getLast? = some c) : isPyWhitespace c = false := by
  rw [pyStripList, dropTrailingWhile, List.getLast?_reverse] at h
  exact head?_dropWhile_false h

theorem mem_of_mem_pyStripList {l : List Char} {c : Char}
    (h : c ∈ pyStripList l) : c ∈ l := by
  rw [pyStripList, dropTrailingWhile, List.mem_reverse] at h
  have h1 := mem_of_mem_dropWhile h
  rw [List.mem_reverse] at h1
  exact mem_of_mem_dropWhile h1

theorem newline_not_mem_pyStripList_readlineList (l : List Char) :
    '\n' ∉ pyStripList (readlineList l) := by
  by_cases hm : '\n' ∈ l
  · rw [readlineList_of_mem hm, pyStripList_append_newline (by decide)]
    intro h
    have h1 := mem_of_mem_pyStripList h
    have h2 := List.mem_takeWhile_imp h1
    simp at h2
  · rw [readlineList_of_not_mem hm]
    intro h
    exact hm (mem_of_mem_pyStripList h)

theorem pyStripList_readlineList_eq_takeWhile (l : List Char) :
    pyStripList (readlineList l) = pyStripList (l.takeWhile (fun c => c != '\n')) := by
  by_cases hm : '\n' ∈ l
  · rw [readlineList_of_mem hm, pyStripList_append_newline (by decide)]
  · rw [readlineList_of_not_mem hm,
      takeWhile_eq_self_of_all (fun c hc => bne_iff_ne.mpr (fun e => hm (by rw [← e]; exact hc)))]

theorem pyStrip_readline_tag {tag : String}
    (h : ∀ c ∈ tag.data, isPyWhitespace c = false) :
    pyStrip (readline (tag ++ "\n")) = tag := by
  have hnm : '\n' ∉ tag.data := fun m => absurd (h '\n' m) (by decide)
  have hd : readline (tag ++ "\n") = String.mk (tag.data ++ ['\n']) := by
    rw [readline, String.data_append, show ("\n" : String).data = ['\n'] from rfl,
      readlineList_append_newline hnm]
  rw [hd, pyStrip]
  show String.mk (pyStripList (tag.data ++ ['\n'])) = tag
  rw [pyStripList_append_newline (by decide), pyStripList_eq_self_of_all h]

/-- Shared helper: when both `git describe` commands print a
whitespace-free string followed by a newline, `version` and `release`
are exactly those strings. -/
theorem version_release_of_tags (w : GitWorld) (tag desc : String)
    (htagOut : w.popen describeNearestCmd = tag ++ "\n")
    (hdescOut : w.popen describeCmd = desc ++ "\n")
    (htag : ∀ c ∈ tag.data, isPyWhitespace c = false)
    (hdesc : ∀ c ∈ desc.data, isPyWhitespace c = false) :
    (loadConfig w).version = tag ∧ (loadConfig w).release = desc := by
  constructor
  · show pyStrip (readline (w.popen describeNearestCmd)) = tag
    rw [htagOut]
    exact pyStrip_readline_tag htag
  · show pyStrip (readline (w.popen describeCmd)) = desc
    rw [hdescOut]
    exact pyStrip_readline_tag hdesc

/-! ### The claims -/

/-- C1: for a repository with at least one reachable tag — modelled by
hypotheses stating git's documented behavior: `git describe --tags
--abbrev=0` prints the nearest tag name followed by a newline, `git
describe --tags` prints the full tag description followed by a newline,
and neither contains whitespace characters (git forbids whitespace in
refnames) — after configuration load `version` equals the nearest tag
name with no trailing whitespace and `release` equals the full tag
description with no trailing whitespace. -/
theorem claim_C1 (w : GitWorld) (tag desc : String)
    (htagOut : w.popen describeNearestCmd = tag ++ "\n")
    (hdescOut : w.popen describeCmd = desc ++ "\n")
    (htag : ∀ c ∈ tag.data, isPyWhitespace c = false)
    (hdesc : ∀ c ∈ desc.data, isPyWhitespace c = false) :
    (loadConfig w).version = tag ∧ (loadConfig w).release = desc :=
  version_release_of_tags w tag desc htagOut hdescOut htag hdesc

/-- Witness for C1 at a concrete world producing tag `v0.3.3` and
description `v0.3.3-42-gdeadbee`. -/
theorem claim_C1_witness :
    (loadConfig ⟨fun c => if c = describeNearestCmd then "v0.3.3\n" else "v0.3.3-42-gdeadbee\n"⟩).version = "v0.3.3" ∧
    (loadConfig ⟨fun c => if c = describeNearestCmd then "v0.3.3\n" else "v0.3.3-42-gdeadbee\n"⟩).release = "v0.3.3-42-gdeadbee" :=
  claim_C1 _ "v0.3.3" "v0.3.3-42-gdeadbee" (by decide) (by decide) (by decide) (by decide)

/-- C2: when the lexer library imports but both `git describe`
invocations produce no standard output (no tag, no git, or not a
repository), configuration load still succeeds and both `version` and
`release` are the empty string. -/
theorem claim_C2 (env : ModuleEnv)
    (hlib : env.lexerLibAvailable = true)
    (h1 : env.git.popen describeNearestCmd = "")
    (h2 : env.git.popen describeCmd = "") :
    (loadModuleTrace env).2 = Except.ok (loadConfig env.git) ∧
    (loadConfig env.git).version = "" ∧ (loadConfig env.git).release = "" := by
  refine ⟨?_, ?_, ?_⟩
  · simp [loadModuleTrace, hlib]
  · show pyStrip (readline (env.git.popen describeNearestCmd)) = ""
    rw [h1]
    rfl
  · show pyStrip (readline (env.git.popen describeCmd)) = ""
    rw [h2]
    rfl

/-- Witness for C2 at a concrete environment whose git commands all
produce empty output. -/
theorem claim_C2_witness :
    (loadModuleTrace ⟨true, ⟨fun _ => ""⟩⟩).2 = Except.ok (loadConfig ⟨fun _ => ""⟩) ∧
    (loadConfig (⟨fun _ => ""⟩ : GitWorld)).version = "" ∧
    (loadConfig (⟨fun _ => ""⟩ : GitWorld)).release = "" :=
  claim_C2 ⟨true, ⟨fun _ => ""⟩⟩ rfl rfl rfl

/-- C3: for every generator state, after `setup` the lexer table maps
`"Solidity"` to `SolidityLexer` and `"Yul"` to `YulLexer`. -/
theorem claim_C3 (sph : Sphinx) :
    (setup sph).getLexer "Solidity" = some Lexer.SolidityLexer ∧
    (setup sph).getLexer "Yul" = some Lexer.YulLexer := by
  constructor <;> simp [setup, addLexer, Sphinx.getLexer, List.find?]

/-- C4: over the resolver's success branch (both commands print a
whitespace-free nonempty tag name / description plus newline) and
failure branch (both commands print nothing), after load either both
`version` and `release` are nonempty — each equal to its tag-derived
string — or both are empty; no other combination arises. -/
theorem claim_C4 (w : GitWorld) (tag desc : String)
    (h : (w.popen describeNearestCmd = tag ++ "\n" ∧ w.popen describeCmd = desc ++ "\n" ∧
          tag ≠ "" ∧ desc ≠ "" ∧
          (∀ c ∈ tag.data, isPyWhitespace c = false) ∧
          (∀ c ∈ desc.data, isPyWhitespace c = false)) ∨
         (w.popen describeNearestCmd = "" ∧ w.popen describeCmd = "")) :
    ((loadConfig w).version = tag ∧ (loadConfig w).release = desc ∧
     (loadConfig w).version ≠ "" ∧ (loadConfig w).release ≠ "") ∨
    ((loadConfig w).version = "" ∧ (loadConfig w).release = "") := by
  rcases h with ⟨h1, h2, htne, hdne, htag, hdesc⟩ | ⟨h1, h2⟩
  · obtain ⟨hv, hr⟩ := version_release_of_tags w tag desc h1 h2 htag hdesc
    exact Or.inl ⟨hv, hr, hv ▸ htne, hr ▸ hdne⟩
  · refine Or.inr ⟨?_, ?_⟩
    · show pyStrip (readline (w.popen describeNearestCmd)) = ""
      rw [h1]
      rfl
    · show pyStrip (readline (w.popen describeCmd)) = ""
      rw [h2]
      rfl

/-- Witness for C4 at a concrete world on the success branch. -/
theorem claim_C4_witness :
    ((loadConfig ⟨fun c => if c = describeNearestCmd then "v1\n" else "v1-2-gabc\n"⟩).version = "v1" ∧
     (loadConfig ⟨fun c => if c = describeNearestCmd then "v1\n" else "v1-2-gabc\n"⟩).release = "v1-2-gabc" ∧
     (loadConfig ⟨fun c => if c = describeNearestCmd then "v1\n" else "v1-2-gabc\n"⟩).version ≠ "" ∧
     (loadConfig ⟨fun c => if c = describeNearestCmd then "v1\n" else "v1-2-gabc\n"⟩).release ≠ "") ∨
    ((loadConfig ⟨fun c => if c = describeNearestCmd then "v1\n" else "v1-2-gabc\n"⟩).version = "" ∧
     (loadConfig ⟨fun c => if c = describeNearestCmd then "v1\n" else "v1-2-gabc\n"⟩).release = "") :=
  claim_C4 _ "v1" "v1-2-gabc"
    (Or.inl ⟨by decide, by decide, by decide, by decide, by decide, by decide⟩)

/-- C5 counterexample: when `git describe --tags` writes more than one
line (for example a warning after the tag), the stored `release` is NOT
the entire captured standard output minus trailing whitespace: the code
keeps only the first line and also strips leading whitespace.  Here the
output is `" a \nb\n"`: the code stores `"a"`, while the entire output
minus trailing whitespace is `" a \nb"`. -/
theorem claim_C5_counterexample :
    (loadConfig ⟨fun _ => " a \nb\n"⟩).release ≠
      specEntireOutputRStrip (GitWorld.popen ⟨fun _ => " a \nb\n"⟩ describeCmd) := by
  decide

/-- C5 amended: the resolver invokes the version-control tool exactly
twice — once for the nearest tag name, once for the verbose tag
description — and for each invocation it stores the FIRST LINE of the
captured standard output with LEADING AND trailing whitespace stripped
(for single-line output this coincides with the whole output minus
surrounding whitespace). -/
theorem claim_C5_amended (env : ModuleEnv) (hlib : env.lexerLibAvailable = true) :
    (loadModuleTrace env).1.filter Effect.isPopen =
      [Effect.popen describeNearestCmd, Effect.popen describeCmd] ∧
    (loadConfig env.git).version = pyStrip (specFirstLine (env.git.popen describeNearestCmd)) ∧
    (loadConfig env.git).release = pyStrip (specFirstLine (env.git.popen describeCmd)) := by
  refine ⟨?_, ?_, ?_⟩
  · simp [loadModuleTrace, hlib, Effect.isPopen]
  · show pyStrip (readline (env.git.popen describeNearestCmd)) = _
    exact congrArg String.mk (pyStripList_readlineList_eq_takeWhile _)
  · show pyStrip (readline (env.git.popen describeCmd)) = _
    exact congrArg String.mk (pyStripList_readlineList_eq_takeWhile _)

/-- Witness for the amended C5 at a concrete environment. -/
theorem claim_C5_amended_witness :
    (loadModuleTrace ⟨true, ⟨fun _ => " a \nb\n"⟩⟩).1.filter Effect.isPopen =
      [Effect.popen describeNearestCmd, Effect.popen describeCmd] ∧
    (loadConfig (⟨fun _ => " a \nb\n"⟩ : GitWorld)).version =
      pyStrip (specFirstLine (GitWorld.popen ⟨fun _ => " a \nb\n"⟩ describeNearestCmd)) ∧
    (loadConfig (⟨fun _ => " a \nb\n"⟩ : GitWorld)).release =
      pyStrip (specFirstLine (GitWorld.popen ⟨fun _ => " a \nb\n"⟩ describeCmd)) :=
  claim_C5_amended ⟨true, ⟨fun _ => " a \nb\n"⟩⟩ rfl

/-- C6: configuration loading is a function of the version-control
state alone: two loads against worlds whose git commands answer the
same produce identical values for every configuration key. -/
theorem claim_C6 (w₁ w₂ : GitWorld)
    (h1 : w₁.popen describeNearestCmd = w₂.popen describeNearestCmd)
    (h2 : w₁.popen describeCmd = w₂.popen describeCmd) :
    loadConfig w₁ = loadConfig w₂ := by
  simp [loadConfig, h1, h2]

/-- Witness for C6: two syntactically different worlds agreeing on the
two `git describe` commands yield the same configuration. -/
theorem claim_C6_witness :
    loadConfig ⟨fun _ => "v1\n"⟩ = loadConfig ⟨fun c => if c = "other" then "x" else "v1\n"⟩ :=
  claim_C6 ⟨fun _ => "v1\n"⟩ ⟨fun c => if c = "other" then "x" else "v1\n"⟩
    (by decide) (by decide)

/-- C7: when the external lexer library is missing, the build fails
at import time with the module-not-found error, no `os.popen` call
(version-string resolution) has happened, and no lexer registration has
happened. -/
theorem claim_C7 (env : ModuleEnv) (sph : Sphinx)
    (h : env.lexerLibAvailable = false) :
    (sphinxBuild env sph).2 = Except.error importErrorMsg ∧
    (∀ cmd, Effect.popen cmd ∉ (sphinxBuild env sph).1) ∧
    (∀ name, Effect.registerLexer name ∉ (sphinxBuild env sph).1) := by
  simp [sphinxBuild, loadModuleTrace, h]

/-- Witness for C7 at a concrete environment without the lexer
library. -/
theorem claim_C7_witness :
    (sphinxBuild ⟨false, ⟨fun _ => "v1\n"⟩⟩ ⟨[]⟩).2 = Except.error importErrorMsg ∧
    (∀ cmd, Effect.popen cmd ∉ (sphinxBuild ⟨false, ⟨fun _ => "v1\n"⟩⟩ ⟨[]⟩).1) ∧
    (∀ name, Effect.registerLexer name ∉ (sphinxBuild ⟨false, ⟨fun _ => "v1\n"⟩⟩ ⟨[]⟩).1) :=
  claim_C7 ⟨false, ⟨fun _ => "v1\n"⟩⟩ ⟨[]⟩ rfl

/-- C8: for every world, the extension list is exactly the one-element
list holding the tab-handling extension identifier `sphinx_tabs.tabs`. -/
theorem claim_C8 (w : GitWorld) :
    (loadConfig w).extensions = ["sphinx_tabs.tabs"] ∧
    (loadConfig w).extensions.length = 1 :=
  ⟨rfl, rfl⟩

/-- C9: whatever the version-control tool prints — including multi-line
output, of which only the first line is kept — neither `version` nor
`release` contains a newline, and neither starts or ends with a
whitespace character. -/
theorem claim_C9 (w : GitWorld) :
    ('\n' ∉ (loadConfig w).version.data ∧ '\n' ∉ (loadConfig w).release.data) ∧
    (∀ c, (loadConfig w).version.data.head? = some c → isPyWhitespace c = false) ∧
    (∀ c, (loadConfig w).version.data.getLast? = some c → isPyWhitespace c = false) ∧
    (∀ c, (loadConfig w).release.data.head? = some c → isPyWhitespace c = false) ∧
    (∀ c, (loadConfig w).release.data.getLast? = some c → isPyWhitespace c = false) := by
  refine ⟨⟨?_, ?_⟩, ?_, ?_, ?_, ?_⟩
  · exact newline_not_mem_pyStripList_readlineList _
  · exact newline_not_mem_pyStripList_readlineList _
  · exact fun c h => head?_pyStripList_not_ws h
  · exact fun c h => getLast?_pyStripList_not_ws h
  · exact fun c h => head?_pyStripList_not_ws h
  · exact fun c h => getLast?_pyStripList_not_ws h

/-- C10: for every world, the configuration sets
`sphinx_tabs_disable_tab_closing` to `True`. -/
theorem claim_C10 (w : GitWorld) :
    (loadConfig w).sphinx_tabs_disable_tab_closing = true :=
  rfl

end SolangDocsConf
